import Mathlib

/-!
Verification of the compatibility-report generator
(`scripts/template/generate.py` of arewelegacycomputingyet.com).

The Python source is shallowly embedded: pure helper functions become Lean
functions, CSV files become lists of already-split records, Python dicts
become association lists, Python sets of codepoints become `Finset ℕ`,
and the float accumulator (adding `1` and `0.5` per codepoint, a sum that
is exact in binary floating point at these magnitudes) becomes a `ℚ` sum
with `Int.floor` for the final `int(...)` truncation of the nonnegative
sum.  Fallible parsing returns `Option`.
-/

/-! ## Characters and hex parsing (Python `int(s, 16)`) -/

/-- Hexadecimal digit test: `0-9`, `a-f`, `A-F`. -/
def isHexDigit (c : Char) : Bool :=
  (('0' ≤ c && c ≤ '9') || ('a' ≤ c && c ≤ 'f') || ('A' ≤ c && c ≤ 'F'))

/-- Numeric value of a hexadecimal digit. -/
def hexDigitVal (c : Char) : ℕ :=
  if '0' ≤ c && c ≤ '9' then c.toNat - 48
  else if 'a' ≤ c && c ≤ 'f' then c.toNat - 87
  else c.toNat - 55

/-- Accumulating scan over the digit part of a hex literal.  A single
underscore is permitted between two digits (as Python's `int` accepts);
anything else fails. -/
def hexCore : ℕ → List Char → Option ℕ
  | acc, [] => some acc
  | acc, c :: rest =>
    if c = '_' then
      match rest with
      | [] => Option.none
      | d :: rest2 =>
        if isHexDigit d then hexCore (acc * 16 + hexDigitVal d) rest2 else Option.none
    else if isHexDigit c then hexCore (acc * 16 + hexDigitVal c) rest else Option.none

/-- Value of a nonempty underscore-separated hex digit string. -/
def hexDigitsVal : List Char → Option ℕ
  | [] => Option.none
  | c :: rest => if isHexDigit c then hexCore (hexDigitVal c) rest else Option.none

/-- Unsigned part of Python's `int(s, 16)`: an optional `0x`/`0X` base
prefix (optionally followed by one underscore) and then hex digits. -/
def intHexBody (cs : List Char) : Option ℕ :=
  match cs with
  | c :: x :: rest =>
    if c = '0' && (x = 'x' || x = 'X') then
      match rest with
      | '_' :: rest2 => hexDigitsVal rest2
      | _ => hexDigitsVal rest
    else hexDigitsVal (c :: x :: rest)
  | _ => hexDigitsVal cs

/-- Model of Python's `int(s, 16)` on whitespace-free ASCII strings: an
optional sign, an optional `0x` prefix, then hex digits with optional
single underscores between digits.  Returns `none` where Python raises
`ValueError`. -/
def int_hex (s : String) : Option ℤ :=
  match s.toList with
  | [] => Option.none
  | c :: rest =>
    if c = '+' then (intHexBody rest).map (fun n => (n : ℤ))
    else if c = '-' then (intHexBody rest).map (fun n => -(n : ℤ))
    else (intHexBody (c :: rest)).map (fun n => (n : ℤ))

/-! ## String helpers used by the loader -/

/-- Accumulating core of whitespace splitting (Python `str.split()` with
no argument: split on runs of whitespace, dropping empty pieces). -/
def splitWsCore : List Char → List Char → List String
  | [], acc => if acc.isEmpty then [] else [⟨acc.reverse⟩]
  | c :: rest, acc =>
    if c.isWhitespace then
      if acc.isEmpty then splitWsCore rest [] else ⟨acc.reverse⟩ :: splitWsCore rest []
    else splitWsCore rest (c :: acc)

/-- Python `s.split()`. -/
def splitWhitespace (s : String) : List String :=
  splitWsCore s.toList []

/-- Python `s.strip()`. -/
def strip (s : String) : String :=
  ⟨((s.toList.dropWhile Char.isWhitespace).reverse.dropWhile Char.isWhitespace).reverse⟩

/-- Python `s.lower()` (ASCII). -/
def lower (s : String) : String :=
  ⟨s.toList.map Char.toLower⟩

/-- Python `"-" in part`. -/
def hasDash (s : String) : Bool :=
  s.toList.any (fun c => c = '-')

/-- Python `part.split("-", 1)`: the text before the first `-` and the
text after it. -/
def splitFirstDash (s : String) : String × String :=
  (⟨s.toList.takeWhile (fun c => c ≠ '-')⟩,
   ⟨(s.toList.dropWhile (fun c => c ≠ '-')).drop 1⟩)

/-! ## `parse_ranges` -/

/-- One token of a `ranges` cell: either `start-end` (hex pair, inclusive,
via Python `range(start, end + 1)`) or a single hex value. -/
def parse_token (t : String) : Option (Finset ℕ) :=
  if hasDash t then do
    let start ← int_hex (splitFirstDash t).1
    let stop ← int_hex (splitFirstDash t).2
    pure (Finset.Ico start.toNat (stop + 1).toNat)
  else do
    let v ← int_hex t
    pure {v.toNat}

/-- Left-to-right accumulation of `codepoints.update(...)` over tokens;
the first malformed token aborts the whole parse. -/
def parse_tokens : List String → Option (Finset ℕ)
  | [] => some ∅
  | t :: rest => do
    let cps ← parse_token t
    let acc ← parse_tokens rest
    pure (cps ∪ acc)

/-- Embedding of `parse_ranges`: strip, split on whitespace, and take the
union of the codepoints each token denotes. -/
def parse_ranges (s : String) : Option (Finset ℕ) :=
  parse_tokens (splitWhitespace (strip s))

/-! ## Codepoint labels -/

/-- The canonical label of a codepoint, `U+XXXX` below `0x10000` and
`U+XXXXX` at or above it (Python `f"U+{cp:04X}"` / `f"U+{cp:05X}"`). -/
def hex_code (cp : ℕ) : String :=
  let digits := (Nat.toDigits 16 cp).map Char.toUpper
  if cp ≥ 0x10000 then "U+" ++ ⟨List.replicate (5 - digits.length) '0' ++ digits⟩
  else "U+" ++ ⟨List.replicate (4 - digits.length) '0' ++ digits⟩

/-! ## Data model -/

/-- A section definition with name and codepoint ranges. -/
structure SectionDef where
  name : String
  codepoints : Finset ℕ
  important : Bool
deriving DecidableEq

/-- A row of the compatibility table: one section, its codepoint count,
and the support value computed for every terminal (`int | None`). -/
structure CompatibilityRow where
  «section» : String
  num_chars : ℕ
  terminal_support : List (String × Option ℤ)
  important : Bool
deriving DecidableEq

/-- Statistics for a Unicode block. -/
structure BlockStats where
  total_codepoints : ℕ
  important_codepoints : ℕ
  supported_important : ℤ
  supported_all : ℤ
deriving DecidableEq

/-! ## CSV loaders (files modelled as their lists of parsed records) -/

/-- One `(section, ranges)` record of a section CSV.  A leading `*`
marks the section important and is stripped from the name. -/
def load_section_row (r : String × String) : Option SectionDef := do
  let section_name := strip r.1
  let ranges_str := strip r.2
  let important := section_name.toList.take 1 = ['*']
  let section_name := if important then (⟨section_name.toList.drop 1⟩ : String) else section_name
  let codepoints ← parse_ranges ranges_str
  pure (⟨section_name, codepoints, important⟩ : SectionDef)

/-- Embedding of `load_section_csv`, with the CSV file given as its list
of `(section, ranges)` records; the first failing row aborts the load. -/
def load_section_csv : List (String × String) → Option (List SectionDef)
  | [] => some []
  | r :: rest => do
    let s ← load_section_row r
    let ss ← load_section_csv rest
    pure (s :: ss)

/-- Python dict insertion: overwrite in place if the key exists, append
otherwise. -/
def dictInsert (m : List (String × String)) (k v : String) : List (String × String) :=
  if m.any (fun p => p.1 = k) then m.map (fun p => if p.1 = k then (k, v) else p)
  else m ++ [(k, v)]

/-- Embedding of `load_emulator_compatibility`: build the codepoint-label
to verdict dict, stripping keys and lower-casing verdicts. -/
def load_emulator_compatibility (rows : List (String × String)) : List (String × String) :=
  rows.foldl (fun m r => dictInsert m (strip r.1) (lower (strip r.2))) []

/-! ## Aggregation -/

/-- Verdict lookup used by the table and block aggregations:
`char_support.get(hex_code, "no")`. -/
def table_status (char_support : List (String × String)) (cp : ℕ) : String :=
  ((char_support.lookup (hex_code cp)).getD "no")

/-- The amount `supported_count` grows by for one codepoint: `1` for
`yes`, `0.5` for `maybe`, nothing otherwise. -/
def statusWeight (status : String) : ℚ :=
  if status = "yes" then 1 else if status = "maybe" then 1 / 2 else 0

/-- A section's support value for one emulator: the weighted count over
the section's codepoints, truncated by `int(...)` at the end (the sum is
nonnegative, so truncation is the floor). -/
def sectionSupport (codepoints : Finset ℕ) (char_support : List (String × String)) : ℤ :=
  ⌊∑ cp in codepoints, statusWeight (table_status char_support cp)⌋

/-- Embedding of `compute_section_compatibility`.  Returns the terminal
names (the dict's keys) and one `CompatibilityRow` per section. -/
def compute_section_compatibility
    (sections : List SectionDef)
    (emulator_data : List (String × List (String × String))) :
    List String × List CompatibilityRow :=
  (emulator_data.map Prod.fst,
   sections.map (fun s =>
     ⟨s.name, s.codepoints.card,
      emulator_data.map (fun e => (e.1, some (sectionSupport s.codepoints e.2))),
      s.important⟩))

/-- Union of every section's codepoints (`all_codepoints` in
`compute_block_stats`). -/
def all_codepoints (sections : List SectionDef) : Finset ℕ :=
  sections.foldl (fun acc s => acc ∪ s.codepoints) ∅

/-- Union of the important sections' codepoints (`important_codepoints`
in `compute_block_stats`). -/
def important_codepoints (sections : List SectionDef) : Finset ℕ :=
  sections.foldl (fun acc s => if s.important then acc ∪ s.codepoints else acc) ∅

/-- Embedding of `compute_block_stats`: per emulator, the weighted counts
over all codepoints and (by the `cp in important_codepoints` test inside
the same loop) over the important ones, each truncated once at the end. -/
def compute_block_stats
    (sections : List SectionDef)
    (emulator_data : List (String × List (String × String))) :
    List (String × BlockStats) :=
  emulator_data.map (fun e =>
    (e.1,
     ⟨(all_codepoints sections).card,
      (important_codepoints sections).card,
      ⌊∑ cp in all_codepoints sections,
        if cp ∈ important_codepoints sections then statusWeight (table_status e.2 cp) else 0⌋,
      ⌊∑ cp in all_codepoints sections, statusWeight (table_status e.2 cp)⌋⟩))

/-- Python `val or 0` on an `int | None` value. -/
def orZero (v : Option ℤ) : ℤ := v.getD 0

/-- Embedding of `calculate_totals`: total supported / total chars per
terminal (a terminal is always a key of every row's support dict in the
pipeline; a missing key is modelled as contributing 0). -/
def calculate_totals (rows : List CompatibilityRow) (terminals : List String) :
    List (String × (ℤ × ℕ)) :=
  terminals.map (fun t =>
    (t, ((rows.map (fun r => orZero ((r.terminal_support.lookup t).getD Option.none))).sum,
         (rows.map (fun r => r.num_chars)).sum)))

/-! ## Compatibility-table cell rendering -/

/-- The four kinds of table cell produced by `render_compatibility_table`,
with the percentage shown by a partial cell. -/
inductive Cell where
  | unknown : Cell
  | full : Cell
  | zero : Cell
  | part : ℚ → Cell
deriving DecidableEq

/-- The CSS class attached to each kind of cell. -/
def cellClass : Cell → String
  | Cell.unknown => "unknown"
  | Cell.full => "full"
  | Cell.zero => "none"
  | Cell.part _ => "partial"

/-- One data cell of `render_compatibility_table`, following the source's
branch order: a `None` value renders `unknown` (`?`), a value equal to
`num_chars` renders `full` (`100%`), a value equal to `0` renders the
`none` class (`0%`, here `Cell.zero`), and otherwise the percentage
`val / num_chars * 100` is computed — a division that raises
`ZeroDivisionError` (modelled as `Option.none`) when `num_chars = 0`. -/
def render_cell (val : Option ℤ) (num_chars : ℕ) : Option Cell :=
  match val with
  | Option.none => some Cell.unknown
  | some v =>
    if v = (num_chars : ℤ) then some Cell.full
    else if v = 0 then some Cell.zero
    else if num_chars = 0 then Option.none
    else some (Cell.part ((v : ℚ) / (num_chars : ℚ) * 100))

/-- The totals-row percentage of `render_compatibility_table`:
`supported / total * 100` guarded by `if total > 0 else 0`. -/
def render_totals_pct (supported : ℤ) (total : ℕ) : ℚ :=
  if 0 < total then (supported : ℚ) / (total : ℚ) * 100 else 0

/-- All data cells of one table, row by row in terminal order. -/
def render_table_cells (terminals : List String) (rows : List CompatibilityRow) :
    List (List (Option Cell)) :=
  rows.map (fun r =>
    terminals.map (fun t =>
      render_cell ((r.terminal_support.lookup t).getD Option.none) r.num_chars))

/-! ## Character grid -/

/-- Verdict lookup used by the grid: `support_data.get(hex_code, "unknown")`. -/
def grid_status (support_data : List (String × String)) (cp : ℕ) : String :=
  (support_data.lookup (hex_code cp)).getD "unknown"

/-- CSS status class of a grid cell. -/
def status_class (status : String) : String :=
  if status = "yes" then "supported"
  else if status = "no" then "unsupported"
  else if status = "maybe" then "partial"
  else "unknown"

/-- Whether a grid cell counts as implemented (`status in ("yes", "maybe")`). -/
def cell_is_implemented (status : String) : Bool :=
  status = "yes" || status = "maybe"

/-- Whether a 16-cell grid row starting at `row_start` is shown under the
important-only filter: some cell is important or implemented. -/
def row_should_show (support_data : List (String × String))
    (important_codepoints : Finset ℕ) (row_start : ℕ) : Bool :=
  (List.range 16).any (fun col =>
    decide (row_start + col ∈ important_codepoints)
      || cell_is_implemented (grid_status support_data (row_start + col)))

/-- The class attribute of one grid row. -/
def grid_row_class (support_data : List (String × String))
    (important_codepoints : Finset ℕ) (row_start : ℕ) : String :=
  if row_should_show support_data important_codepoints row_start then "grid-row"
  else "grid-row row-unimportant"

/-- Embedding of the row-class computation of `render_character_grid`:
the class of each of the `num_rows` 16-cell rows. -/
def render_character_grid_classes (support_data : List (String × String))
    (important_codepoints : Finset ℕ) (start_codepoint : ℕ) (num_rows : ℕ) : List String :=
  (List.range num_rows).map (fun row =>
    grid_row_class support_data important_codepoints (start_codepoint + row * 16))

/-! ## Pipeline assembly (`main`'s per-block work) and input ordering -/

/-- Lexicographic-by-codepoint comparison of character lists, the order
Python uses on strings. -/
def charListLe : List Char → List Char → Bool
  | [], _ => true
  | _ :: _, [] => false
  | a :: as, b :: bs => if a < b then true else if b < a then false else charListLe as bs

/-- Order in which `sorted(compat_dir.glob("*.csv"))` yields the emulator
files: by file name, i.e. by emulator name with the `.csv` suffix
appended. -/
def csvNameLe (a b : String) : Bool :=
  charListLe (a.toList ++ ['.', 'c', 's', 'v']) (b.toList ++ ['.', 'c', 's', 'v'])

/-- The emulator-data dict built by `main`: one CSV per emulator, loaded
in sorted file-name order. -/
def build_emulator_data (files : List (String × List (String × String))) :
    List (String × List (String × String)) :=
  (files.insertionSort (fun a b => csvNameLe a.1 b.1 = true)).map
    (fun f => (f.1, load_emulator_compatibility f.2))

/-- The per-block generation pipeline of `main`, from the section CSV's
records and the compatibility directory's files (in arbitrary order) to
every CSV-derived piece of the page: terminals and rows, rendered table
cells, totals, block statistics, and grid row classes per emulator. -/
def generate (sectionRows : List (String × String))
    (files : List (String × List (String × String)))
    (start_codepoint num_rows : ℕ) :
    Option ((List String × List CompatibilityRow) × List (List (Option Cell)) ×
      List (String × (ℤ × ℕ)) × List (String × BlockStats) × List (String × List String)) := do
  let sections ← load_section_csv sectionRows
  let emulator_data := build_emulator_data files
  let (terminals, rows) := compute_section_compatibility sections emulator_data
  pure ((terminals, rows),
    render_table_cells terminals rows,
    calculate_totals rows terminals,
    compute_block_stats sections emulator_data,
    emulator_data.map (fun e =>
      (e.1, render_character_grid_classes e.2 (important_codepoints sections)
              start_codepoint num_rows)))

/-! ## Specification-side and evaluation-side auxiliary definitions -/

/-- Value denoted by a plain string of hex digits. -/
def hexStrVal (cs : List Char) : ℕ :=
  cs.foldl (fun a c => a * 16 + hexDigitVal c) 0

/-- A token that is a plain nonempty string of hex digits. -/
def tokenIsHex (t : String) : Bool :=
  !t.toList.isEmpty && t.toList.all isHexDigit

/-- A well-formed `ranges` token per the spec: a hex value, or a
hyphenated pair of hex values. -/
def tokenValid (t : String) : Bool :=
  if hasDash t then tokenIsHex (splitFirstDash t).1 && tokenIsHex (splitFirstDash t).2
  else tokenIsHex t

/-- The set of codepoints a well-formed token denotes: the inclusive
interval of a pair, or the singleton of a single value. -/
def tokenDenote (t : String) : Finset ℕ :=
  if hasDash t then
    Finset.Icc (hexStrVal (splitFirstDash t).1.toList) (hexStrVal (splitFirstDash t).2.toList)
  else {hexStrVal t.toList}

/-- A token on which the code's hex parsing fails (single value, or
either half of a hyphenated pair, rejected by `int(s, 16)`). -/
def tokenMalformed (t : String) : Bool :=
  if hasDash t then
    (int_hex (splitFirstDash t).1).isNone || (int_hex (splitFirstDash t).2).isNone
  else (int_hex t).isNone

/-- Support value as the spec words it: over the section's codepoints,
count 1 per `yes` verdict and 0.5 per `maybe` (an absent codepoint reads
as `no`), truncating to an integer after the whole sum. -/
def spec_support_value (cps : Finset ℕ) (sd : List (String × String)) : ℤ :=
  ⌊∑ cp in cps,
    (if (sd.lookup (hex_code cp)).getD "no" = "yes" then (1 : ℚ)
     else if (sd.lookup (hex_code cp)).getD "no" = "maybe" then 1 / 2 else 0)⌋

/-- Verdict weight in half-units, for concrete evaluation. -/
def statusWeight2 (status : String) : ℕ :=
  if status = "yes" then 2 else if status = "maybe" then 1 else 0

/-! ## Helper lemmas: evaluating the weighted sums -/

theorem statusWeight_eq_half (s : String) :
    statusWeight s = (statusWeight2 s : ℚ) / 2 := by
  unfold statusWeight statusWeight2
  by_cases h1 : s = "yes" <;> by_cases h2 : s = "maybe" <;> simp [h1, h2]

theorem sectionSupport_eq_half (cps : Finset ℕ) (sd : List (String × String)) :
    sectionSupport cps sd
      = (((∑ cp in cps, statusWeight2 (table_status sd cp)) / 2 : ℕ) : ℤ) := by
  unfold sectionSupport
  rw [Finset.sum_congr rfl (fun cp _ => statusWeight_eq_half (table_status sd cp)),
    ← Finset.sum_div, ← Nat.cast_sum,
    show ((2 : ℚ)) = ((2 : ℕ) : ℚ) by norm_num,
    Rat.floor_natCast_div_natCast]
  exact_mod_cast rfl

theorem statusWeight_nonneg (s : String) : 0 ≤ statusWeight s := by
  unfold statusWeight
  split_ifs <;> norm_num

theorem statusWeight_le_one (s : String) : statusWeight s ≤ 1 := by
  unfold statusWeight
  split_ifs <;> norm_num

theorem sectionSupport_nonneg (cps : Finset ℕ) (sd : List (String × String)) :
    0 ≤ sectionSupport cps sd :=
  Int.floor_nonneg.mpr (Finset.sum_nonneg fun cp _ => statusWeight_nonneg _)

theorem sectionSupport_le_card (cps : Finset ℕ) (sd : List (String × String)) :
    sectionSupport cps sd ≤ (cps.card : ℤ) := by
  have h : (∑ cp in cps, statusWeight (table_status sd cp)) ≤ (cps.card : ℚ) := by
    calc (∑ cp in cps, statusWeight (table_status sd cp))
        ≤ ∑ _cp in cps, (1 : ℚ) :=
          Finset.sum_le_sum fun cp _ => statusWeight_le_one _
      _ = (cps.card : ℚ) := by simp
  calc sectionSupport cps sd ≤ ⌊(cps.card : ℚ)⌋ := Int.floor_le_floor h
    _ = (cps.card : ℤ) := Int.floor_natCast _

/-! ## Helper lemmas: block unions -/

theorem importantFold_subset_allFold (sections : List SectionDef) :
    ∀ acc1 acc2 : Finset ℕ, acc2 ⊆ acc1 →
      sections.foldl (fun acc s => if s.important then acc ∪ s.codepoints else acc) acc2
        ⊆ sections.foldl (fun acc s => acc ∪ s.codepoints) acc1 := by
  induction sections with
  | nil => exact fun _ _ h => h
  | cons s rest ih =>
    intro acc1 acc2 h
    simp only [List.foldl_cons]
    by_cases hs : s.important
    · simp only [hs, if_pos]
      exact ih _ _ (Finset.union_subset_union h (subset_refl _))
    · simp only [hs, if_neg, ite_false]
      exact ih _ _ (h.trans Finset.subset_union_left)

theorem important_subset_all (sections : List SectionDef) :
    important_codepoints sections ⊆ all_codepoints sections :=
  importantFold_subset_allFold sections ∅ ∅ (subset_refl _)

theorem sum_ite_important (sections : List SectionDef) (sd : List (String × String)) :
    (∑ cp in all_codepoints sections,
        if cp ∈ important_codepoints sections then statusWeight (table_status sd cp) else 0)
      = ∑ cp in important_codepoints sections, statusWeight (table_status sd cp) := by
  rw [Finset.sum_ite_mem]
  congr 1
  exact Finset.inter_eq_right.mpr (important_subset_all sections)

/-! ## Helper lemmas: the lexicographic file order -/

theorem charListLe_total : ∀ a b : List Char, charListLe a b = true ∨ charListLe b a = true
  | [], _ => Or.inl rfl
  | _ :: _, [] => Or.inr rfl
  | a :: as, b :: bs => by
    rcases lt_trichotomy a b with h | h | h
    · left; simp [charListLe, h]
    · subst h
      rcases charListLe_total as bs with ih | ih
      · left; simp [charListLe, lt_irrefl, ih]
      · right; simp [charListLe, lt_irrefl, ih]
    · right; simp [charListLe, h]

theorem charListLe_trans :
    ∀ a b c : List Char, charListLe a b = true → charListLe b c = true → charListLe a c = true
  | [], _, _ => by intro _ _; rfl
  | _ :: _, [], _ => by intro h _; exact absurd h (by simp [charListLe])
  | _ :: _, _ :: _, [] => by intro _ h; exact absurd h (by simp [charListLe])
  | a :: as, b :: bs, c :: cs => by
    intro h1 h2
    rcases lt_trichotomy a b with hab | hab | hab
    · rcases lt_trichotomy b c with hbc | hbc | hbc
      · simp [charListLe, lt_trans hab hbc]
      · subst hbc; simp [charListLe, hab]
      · exact absurd h2 (by simp [charListLe, lt_asymm hbc, hbc])
    · subst hab
      rcases lt_trichotomy a c with hac | hac | hac
      · simp [charListLe, hac]
      · subst hac
        simp only [charListLe, lt_irrefl, if_false] at h1 h2 ⊢
        exact charListLe_trans as bs cs h1 h2
      · exact absurd h2 (by simp [charListLe, lt_asymm hac, hac])
    · exact absurd h1 (by simp [charListLe, lt_asymm hab, hab])

theorem charListLe_antisymm :
    ∀ a b : List Char, charListLe a b = true → charListLe b a = true → a = b
  | [], [] => by intro _ _; rfl
  | [], _ :: _ => by intro _ h; exact absurd h (by simp [charListLe])
  | _ :: _, [] => by intro h _; exact absurd h (by simp [charListLe])
  | a :: as, b :: bs => by
    intro h1 h2
    rcases lt_trichotomy a b with hab | hab | hab
    · exact absurd h2 (by simp [charListLe, lt_asymm hab, hab])
    · subst hab
      simp only [charListLe, lt_irrefl, if_false] at h1 h2
      rw [charListLe_antisymm as bs h1 h2]
    · exact absurd h1 (by simp [charListLe, lt_asymm hab, hab])

theorem csvNameLe_antisymm {a b : String} :
    csvNameLe a b = true → csvNameLe b a = true → a = b := by
  intro h1 h2
  have h3 := charListLe_antisymm _ _ h1 h2
  have h4 : a.toList = b.toList := List.append_cancel_right h3
  cases a with
  | mk da =>
  cases b with
  | mk db =>
  have h5 : da = db := by simpa [String.toList] using h4
  rw [h5]

/-- Sorting by CSV file name is permutation-invariant when the emulator
names are pairwise distinct, which glob over one directory guarantees. -/
theorem insertionSort_csvName_perm_eq
    (l1 l2 : List (String × List (String × String)))
    (hp : l1.Perm l2) (hn : (l1.map Prod.fst).Nodup) :
    l1.insertionSort (fun a b => csvNameLe a.1 b.1 = true)
      = l2.insertionSort (fun a b => csvNameLe a.1 b.1 = true) := by
  let r : (String × List (String × String)) → (String × List (String × String)) → Prop :=
    fun a b => csvNameLe a.1 b.1 = true
  haveI : IsTotal (String × List (String × String)) r :=
    ⟨fun a b => charListLe_total _ _⟩
  haveI : IsTrans (String × List (String × String)) r :=
    ⟨fun _ _ _ h1 h2 => charListLe_trans _ _ _ h1 h2⟩
  have hperm : (l1.insertionSort r).Perm (l2.insertionSort r) :=
    (List.perm_insertionSort r l1).trans (hp.trans (List.perm_insertionSort r l2).symm)
  have hs1 : (l1.insertionSort r).Sorted r := List.sorted_insertionSort r l1
  have hs2 : (l2.insertionSort r).Sorted r := List.sorted_insertionSort r l2
  have hn1 : ((l1.insertionSort r).map Prod.fst).Nodup :=
    (((List.perm_insertionSort r l1).map Prod.fst).nodup_iff).mpr hn
  have hn2 : ((l2.insertionSort r).map Prod.fst).Nodup :=
    (((List.perm_insertionSort r l2).map Prod.fst).nodup_iff).mpr
      (((hp.map Prod.fst).nodup_iff).mp hn)
  have hp1 : (l1.insertionSort r).Pairwise (fun a b => a.1 ≠ b.1) :=
    List.pairwise_map.mp hn1
  have hp2 : (l2.insertionSort r).Pairwise (fun a b => a.1 ≠ b.1) :=
    List.pairwise_map.mp hn2
  let r' : (String × List (String × String)) → (String × List (String × String)) → Prop :=
    fun a b => r a b ∧ a.1 ≠ b.1
  haveI : IsAntisymm (String × List (String × String)) r' :=
    ⟨fun _ _ h1 h2 => absurd (csvNameLe_antisymm h1.1 h2.1) h1.2⟩
  exact List.eq_of_perm_of_sorted (r := r') hperm (hs1.and hp1) (hs2.and hp2)

/-! ## Helper lemmas: hex parsing of well-formed tokens -/

theorem hexCore_all_hex (cs : List Char) (h : ∀ c ∈ cs, isHexDigit c = true) :
    ∀ acc, hexCore acc cs = some (cs.foldl (fun a c => a * 16 + hexDigitVal c) acc) := by
  induction cs with
  | nil => intro acc; rfl
  | cons c rest ih =>
    intro acc
    have hc : isHexDigit c = true := h c (List.mem_cons_self _ _)
    have hne : c ≠ '_' := by
      intro e; subst e; exact absurd hc (by decide)
    rw [hexCore.eq_def]
    dsimp only
    rw [if_neg hne, if_pos hc, List.foldl_cons]
    exact ih (fun d hd => h d (List.mem_cons_of_mem _ hd)) _

theorem hexDigitsVal_all_hex (cs : List Char) (hne : cs ≠ [])
    (h : ∀ c ∈ cs, isHexDigit c = true) :
    hexDigitsVal cs = some (hexStrVal cs) := by
  cases cs with
  | nil => exact absurd rfl hne
  | cons c rest =>
    have hc : isHexDigit c = true := h c (List.mem_cons_self _ _)
    simp only [hexDigitsVal, hc, if_true]
    rw [hexCore_all_hex rest (fun d hd => h d (List.mem_cons_of_mem _ hd))]
    simp [hexStrVal]

theorem intHexBody_all_hex (cs : List Char) (hne : cs ≠ [])
    (h : ∀ c ∈ cs, isHexDigit c = true) :
    intHexBody cs = some (hexStrVal cs) := by
  cases cs with
  | nil => exact absurd rfl hne
  | cons c rest =>
    cases rest with
    | nil => exact hexDigitsVal_all_hex [c] (by simp) h
    | cons x rest2 =>
      have hx : isHexDigit x = true := h x (List.mem_cons_of_mem _ (List.mem_cons_self _ _))
      have hx1 : x ≠ 'x' := by intro e; subst e; exact absurd hx (by decide)
      have hx2 : x ≠ 'X' := by intro e; subst e; exact absurd hx (by decide)
      simp only [intHexBody]
      rw [if_neg (by simp [hx1, hx2])]
      exact hexDigitsVal_all_hex _ (by simp) h

theorem int_hex_all_hex (t : String) (hne : t.toList ≠ [])
    (h : ∀ c ∈ t.toList, isHexDigit c = true) :
    int_hex t = some ((hexStrVal t.toList : ℕ) : ℤ) := by
  unfold int_hex
  cases e : t.toList with
  | nil => exact absurd e hne
  | cons c rest =>
    rw [e] at h
    have hc : isHexDigit c = true := h c (List.mem_cons_self _ _)
    have h1 : c ≠ '+' := by intro hcon; subst hcon; exact absurd hc (by decide)
    have h2 : c ≠ '-' := by intro hcon; subst hcon; exact absurd hc (by decide)
    simp only [if_neg h1, if_neg h2]
    rw [intHexBody_all_hex _ (by simp) h]
    rfl

/-! ## Token-level specification of `parse_ranges` -/

theorem tokenIsHex_parts (t : String) (h : tokenIsHex t = true) :
    t.toList ≠ [] ∧ ∀ c ∈ t.toList, isHexDigit c = true := by
  unfold tokenIsHex at h
  simp only [Bool.and_eq_true, List.all_eq_true, Bool.not_eq_true', List.isEmpty_eq_false] at h
  exact ⟨h.1, h.2⟩

theorem parse_token_valid (t : String) (h : tokenValid t = true) :
    parse_token t = some (tokenDenote t) := by
  unfold tokenValid at h
  unfold parse_token tokenDenote
  by_cases hd : hasDash t = true
  · simp only [hd, if_true] at h ⊢
    rw [Bool.and_eq_true] at h
    obtain ⟨h1, h2⟩ := h
    obtain ⟨hne1, hall1⟩ := tokenIsHex_parts _ h1
    obtain ⟨hne2, hall2⟩ := tokenIsHex_parts _ h2
    rw [int_hex_all_hex _ hne1 hall1, int_hex_all_hex _ hne2 hall2]
    simp only [Option.bind_eq_bind, Option.some_bind, Option.some.injEq]
    rw [show (((hexStrVal (splitFirstDash t).2.toList) : ℤ) + 1)
        = (((hexStrVal (splitFirstDash t).2.toList) + 1 : ℕ) : ℤ) by push_cast; ring]
    rw [Int.toNat_natCast, Int.toNat_natCast]
    rw [show (hexStrVal (splitFirstDash t).2.toList + 1)
        = (hexStrVal (splitFirstDash t).2.toList).succ from rfl, Nat.Ico_succ_right]
    rfl
  · simp only [hd, if_false, Bool.false_eq_true] at h ⊢
    obtain ⟨hne, hall⟩ := tokenIsHex_parts _ h
    rw [int_hex_all_hex _ hne hall]
    simp only [Option.bind_eq_bind, Option.some_bind, Option.some.injEq]
    rw [Int.toNat_natCast]
    rfl

theorem parse_tokens_valid (ts : List String) (h : ∀ t ∈ ts, tokenValid t = true) :
    parse_tokens ts = some (ts.foldr (fun t acc => tokenDenote t ∪ acc) ∅) := by
  induction ts with
  | nil => rfl
  | cons t rest ih =>
    simp only [parse_tokens, parse_token_valid t (h t (List.mem_cons_self _ _)),
      ih (fun u hu => h u (List.mem_cons_of_mem _ hu)), Option.bind_eq_bind,
      Option.some_bind, List.foldr_cons]
    rfl

theorem parse_tokens_fail (ts : List String) (h : ∃ t ∈ ts, parse_token t = Option.none) :
    parse_tokens ts = Option.none := by
  induction ts with
  | nil => obtain ⟨t, ht, _⟩ := h; exact absurd ht (List.not_mem_nil t)
  | cons t rest ih =>
    obtain ⟨u, hu, hfail⟩ := h
    rcases List.mem_cons.mp hu with rfl | hmem
    · simp [parse_tokens, hfail]
    · cases hp : parse_token t with
      | none => simp [parse_tokens, hp]
      | some cps => simp [parse_tokens, hp, ih ⟨u, hmem, hfail⟩]

theorem parse_token_malformed (t : String) (h : tokenMalformed t = true) :
    parse_token t = Option.none := by
  unfold tokenMalformed at h
  unfold parse_token
  by_cases hd : hasDash t = true
  · simp only [hd, if_true] at h ⊢
    rw [Bool.or_eq_true] at h
    rcases h with h1 | h2
    · rw [Option.isNone_iff_eq_none.mp h1]; rfl
    · rw [Option.isNone_iff_eq_none.mp h2]
      cases int_hex (splitFirstDash t).1 <;> rfl
  · simp only [hd, if_false, Bool.false_eq_true] at h ⊢
    rw [Option.isNone_iff_eq_none.mp h]
    rfl

/-! ## Helper lemmas: fatal propagation of parse failures -/

theorem load_section_row_fail (r : String × String)
    (h : parse_ranges (strip r.2) = Option.none) :
    load_section_row r = Option.none := by
  simp [load_section_row, h]

theorem load_section_csv_fail (rows : List (String × String)) (r : String × String)
    (hr : r ∈ rows) (h : parse_ranges (strip r.2) = Option.none) :
    load_section_csv rows = Option.none := by
  induction rows with
  | nil => exact absurd hr (List.not_mem_nil r)
  | cons r0 rest ih =>
    simp only [load_section_csv]
    rcases List.mem_cons.mp hr with rfl | hmem
    · rw [load_section_row_fail _ h]
      rfl
    · cases h0 : load_section_row r0 with
      | none => rfl
      | some s => simp [h0, ih hmem]

/-! ## Claim theorems -/

theorem sectionSupport_eq_spec (cps : Finset ℕ) (sd : List (String × String)) :
    sectionSupport cps sd = spec_support_value cps sd := rfl

/-- C1: every support value computed by `compute_section_compatibility`
equals the spec's weighted count (1 per `yes`, 0.5 per `maybe`, absent
codepoints as `no`, one truncation after the sum); a 4-codepoint section
with 2 `yes` and 1 `maybe` yields 2; and the end-to-end example
`*Main,1FB00-1FB03` against `yes`/`no`/`maybe`/absent yields
`num_chars = 4`, support `1`, rendered as a `partial` cell at 25%. -/
theorem c1_support_values :
    (∀ (sections : List SectionDef) (data : List (String × List (String × String)))
        (i : ℕ) (sec : SectionDef) (t : String) (sd : List (String × String)),
      sections.get? i = some sec → (t, sd) ∈ data →
      ∃ row, (compute_section_compatibility sections data).2.get? i = some row ∧
        row.num_chars = sec.codepoints.card ∧
        (t, some (spec_support_value sec.codepoints sd)) ∈ row.terminal_support) ∧
    (compute_section_compatibility
        [⟨"S", {0x1FB00, 0x1FB01, 0x1FB02, 0x1FB03}, false⟩]
        [("emu", [("U+1FB00", "yes"), ("U+1FB01", "yes"),
                  ("U+1FB02", "maybe"), ("U+1FB03", "no")])]).2
      = [⟨"S", 4, [("emu", some 2)], false⟩] ∧
    (∃ sections row,
      load_section_csv [("*Main", "1FB00-1FB03")] = some sections ∧
      (compute_section_compatibility sections
        [("emu", load_emulator_compatibility
          [("U+1FB00", "yes"), ("U+1FB01", "no"), ("U+1FB02", "maybe")])]).2 = [row] ∧
      row.num_chars = 4 ∧ row.terminal_support = [("emu", some 1)] ∧
      render_cell (some 1) row.num_chars = some (Cell.part 25)) := by
  refine ⟨?_, ?_, ?_⟩
  · intro sections data i sec t sd hi hmem
    refine ⟨⟨sec.name, sec.codepoints.card,
      data.map (fun e => (e.1, some (sectionSupport sec.codepoints e.2))), sec.important⟩, ?_, rfl, ?_⟩
    · rw [List.get?_eq_getElem?] at hi
      simp only [compute_section_compatibility, List.getElem?_map, List.get?_eq_getElem?, hi]
      rfl
    · exact List.mem_map.mpr ⟨(t, sd), hmem, by rw [sectionSupport_eq_spec]⟩
  · simp only [compute_section_compatibility, List.map]
    rw [sectionSupport_eq_half]
    decide
  · refine ⟨[⟨"Main", {0x1FB00, 0x1FB01, 0x1FB02, 0x1FB03}, true⟩],
      ⟨"Main", 4, [("emu", some 1)], true⟩, by decide, ?_, rfl, rfl, ?_⟩
    · simp only [compute_section_compatibility, List.map]
      rw [sectionSupport_eq_half]
      decide
    · show render_cell (some 1) 4 = some (Cell.part 25)
      unfold render_cell
      norm_num

theorem c1_support_values_witness :
    ([⟨"S", {5}, false⟩] : List SectionDef).get? 0 = some ⟨"S", {5}, false⟩ ∧
    ("t", [("U+0005", "yes")])
      ∈ ([("t", [("U+0005", "yes")])] : List (String × List (String × String))) ∧
    ∃ row, (compute_section_compatibility [⟨"S", {5}, false⟩]
        [("t", [("U+0005", "yes")])]).2.get? 0 = some row ∧
      row.num_chars = ({5} : Finset ℕ).card ∧
      ("t", some (spec_support_value {5} [("U+0005", "yes")])) ∈ row.terminal_support :=
  ⟨by decide, by decide,
    c1_support_values.1 [⟨"S", {5}, false⟩] [("t", [("U+0005", "yes")])] 0
      ⟨"S", {5}, false⟩ "t" [("U+0005", "yes")] (by decide) (by decide)⟩

/-- C2: for every valid ranges string (whitespace-separated tokens, each
a hex value or a hyphenated hex pair), `parse_ranges` returns exactly the
union of the inclusive intervals the tokens denote; in particular
`"1FB00-1FB02 1FB10"` parses to `{0x1FB00, 0x1FB01, 0x1FB02, 0x1FB10}`. -/
theorem c2_parse_ranges_exact :
    (∀ s : String, (∀ t ∈ splitWhitespace (strip s), tokenValid t = true) →
      parse_ranges s
        = some ((splitWhitespace (strip s)).foldr (fun t acc => tokenDenote t ∪ acc) ∅)) ∧
    parse_ranges "1FB00-1FB02 1FB10" = some {0x1FB00, 0x1FB01, 0x1FB02, 0x1FB10} :=
  ⟨fun _ h => parse_tokens_valid _ h, by decide⟩

theorem c2_parse_ranges_exact_witness :
    (∀ t ∈ splitWhitespace (strip "1FB00-1FB02 1FB10"), tokenValid t = true) ∧
    parse_ranges "1FB00-1FB02 1FB10"
      = some ((splitWhitespace (strip "1FB00-1FB02 1FB10")).foldr
          (fun t acc => tokenDenote t ∪ acc) ∅) :=
  ⟨by decide, c2_parse_ranges_exact.1 "1FB00-1FB02 1FB10" (by decide)⟩

/-- C8: a ranges string containing a token whose hex parsing fails (a
single value, or either half of a hyphenated pair, rejected by
`int(s, 16)`) makes `parse_ranges` fail, and the failure is fatal for
the whole section CSV load of that block. -/
theorem c8_malformed_fatal :
    (∀ s : String, (∃ t ∈ splitWhitespace (strip s), tokenMalformed t = true) →
      parse_ranges s = Option.none) ∧
    (∀ (rows : List (String × String)) (r : String × String), r ∈ rows →
      parse_ranges (strip r.2) = Option.none → load_section_csv rows = Option.none) := by
  constructor
  · rintro s ⟨t, ht, hm⟩
    exact parse_tokens_fail _ ⟨t, ht, parse_token_malformed t hm⟩
  · intro rows r hr h
    exact load_section_csv_fail rows r hr h

theorem c8_malformed_fatal_witness :
    (∃ t ∈ splitWhitespace (strip "1FB00 ZZ"), tokenMalformed t = true) ∧
    parse_ranges "1FB00 ZZ" = Option.none ∧
    (("Sec", "ZZ") ∈ ([("Sec", "ZZ")] : List (String × String))) ∧
    parse_ranges (strip ("Sec", "ZZ").2) = Option.none ∧
    load_section_csv [("Sec", "ZZ")] = Option.none :=
  ⟨by decide, c8_malformed_fatal.1 "1FB00 ZZ" (by decide), by decide, by decide,
    c8_malformed_fatal.2 [("Sec", "ZZ")] ("Sec", "ZZ") (by decide) (by decide)⟩

/-- C4: a codepoint absent from an emulator's dict reads as verdict `no`
in the table and block aggregations (contributing weight 0) and as status
`unknown` (class `unknown`) in the character grid. -/
theorem c4_missing_defaults :
    ∀ (sd : List (String × String)) (cp : ℕ), sd.lookup (hex_code cp) = Option.none →
      table_status sd cp = "no" ∧ statusWeight (table_status sd cp) = 0 ∧
      grid_status sd cp = "unknown" ∧ status_class (grid_status sd cp) = "unknown" := by
  intro sd cp h
  unfold table_status grid_status
  rw [h]
  exact ⟨rfl, by decide, rfl, rfl⟩

theorem c4_missing_defaults_witness :
    ([("U+1FB00", "yes")] : List (String × String)).lookup (hex_code 0x1FB01) = Option.none ∧
    (table_status [("U+1FB00", "yes")] 0x1FB01 = "no" ∧
     statusWeight (table_status [("U+1FB00", "yes")] 0x1FB01) = 0 ∧
     grid_status [("U+1FB00", "yes")] 0x1FB01 = "unknown" ∧
     status_class (grid_status [("U+1FB00", "yes")] 0x1FB01) = "unknown") :=
  ⟨by decide, c4_missing_defaults [("U+1FB00", "yes")] 0x1FB01 (by decide)⟩

theorem block_floor_ite_eq_half (sections : List SectionDef) (sd : List (String × String)) :
    (⌊∑ cp in all_codepoints sections,
        if cp ∈ important_codepoints sections then statusWeight (table_status sd cp) else 0⌋ : ℤ)
      = (((∑ cp in important_codepoints sections, statusWeight2 (table_status sd cp)) / 2 : ℕ) : ℤ) := by
  rw [sum_ite_important]
  exact sectionSupport_eq_half _ _

/-- C6: for every emulator, `compute_block_stats` reports the weighted
count over the union of all sections' codepoints and, separately, over
the union of the important sections' codepoints, each truncated once
after its whole sum; with two `maybe` codepoints the all-block count is
1 (0.5 + 0.5 truncated at the end, not per codepoint). -/
theorem c6_block_stats :
    (∀ (sections : List SectionDef) (data : List (String × List (String × String)))
        (t : String) (sd : List (String × String)), (t, sd) ∈ data →
      (t, (⟨(all_codepoints sections).card, (important_codepoints sections).card,
        ⌊∑ cp in important_codepoints sections, statusWeight (table_status sd cp)⌋,
        ⌊∑ cp in all_codepoints sections, statusWeight (table_status sd cp)⌋⟩ : BlockStats))
        ∈ compute_block_stats sections data) ∧
    compute_block_stats [⟨"S", {0, 1}, true⟩]
        [("e", [("U+0000", "maybe"), ("U+0001", "maybe")])]
      = [("e", ⟨2, 2, 1, 1⟩)] := by
  constructor
  · intro sections data t sd h
    unfold compute_block_stats
    refine List.mem_map.mpr ⟨(t, sd), h, ?_⟩
    rw [sum_ite_important]
  · unfold compute_block_stats
    simp only [List.map]
    rw [block_floor_ite_eq_half]
    rw [show (⌊∑ cp in all_codepoints [⟨"S", {0, 1}, true⟩],
          statusWeight (table_status [("U+0000", "maybe"), ("U+0001", "maybe")] cp)⌋ : ℤ)
        = (((∑ cp in all_codepoints [⟨"S", {0, 1}, true⟩],
            statusWeight2 (table_status [("U+0000", "maybe"), ("U+0001", "maybe")] cp)) / 2 : ℕ) : ℤ)
      from sectionSupport_eq_half _ _]
    decide

theorem c6_block_stats_witness :
    (("e", ([] : List (String × String)))
        ∈ ([("e", [])] : List (String × List (String × String)))) ∧
    ("e", (⟨(all_codepoints ([] : List SectionDef)).card,
      (important_codepoints ([] : List SectionDef)).card,
      ⌊∑ cp in important_codepoints ([] : List SectionDef), statusWeight (table_status [] cp)⌋,
      ⌊∑ cp in all_codepoints ([] : List SectionDef), statusWeight (table_status [] cp)⌋⟩ : BlockStats))
      ∈ compute_block_stats ([] : List SectionDef) [("e", [])] :=
  ⟨by decide, c6_block_stats.1 ([] : List SectionDef) [("e", [])] "e" [] (by decide)⟩

/-- C9: every support value `compute_section_compatibility` stores is a
present (non-`None`) integer `v` with `0 ≤ v ≤ num_chars`, and a present
value never renders the `unknown` cell class. -/
theorem c9_bounds :
    (∀ (sections : List SectionDef) (data : List (String × List (String × String)))
        (i : ℕ) (sec : SectionDef) (t : String) (sd : List (String × String)),
      sections.get? i = some sec → (t, sd) ∈ data →
      ∃ row v, (compute_section_compatibility sections data).2.get? i = some row ∧
        (t, some v) ∈ row.terminal_support ∧ 0 ≤ v ∧ v ≤ (row.num_chars : ℤ) ∧
        render_cell (some v) row.num_chars ≠ some Cell.unknown) ∧
    (∀ (v : ℤ) (n : ℕ), render_cell (some v) n ≠ some Cell.unknown) := by
  have hnever : ∀ (v : ℤ) (n : ℕ), render_cell (some v) n ≠ some Cell.unknown := by
    intro v n hcontra
    by_cases h1 : v = (n : ℤ) <;> by_cases h2 : v = 0 <;> by_cases h3 : n = 0 <;>
      simp [render_cell, h1, h2, h3] at hcontra
    all_goals (split_ifs at hcontra <;> simp_all)
  constructor
  · intro sections data i sec t sd hi hmem
    refine ⟨⟨sec.name, sec.codepoints.card,
      data.map (fun e => (e.1, some (sectionSupport sec.codepoints e.2))), sec.important⟩,
      sectionSupport sec.codepoints sd, ?_, ?_,
      sectionSupport_nonneg _ _, sectionSupport_le_card _ _, hnever _ _⟩
    · rw [List.get?_eq_getElem?] at hi
      simp only [compute_section_compatibility, List.getElem?_map, List.get?_eq_getElem?, hi]
      rfl
    · exact List.mem_map.mpr ⟨(t, sd), hmem, rfl⟩
  · exact hnever

theorem c9_bounds_witness :
    ([⟨"T", {7, 8}, true⟩] : List SectionDef).get? 0 = some ⟨"T", {7, 8}, true⟩ ∧
    ("u", [("U+0007", "maybe")])
      ∈ ([("u", [("U+0007", "maybe")])] : List (String × List (String × String))) ∧
    ∃ row v, (compute_section_compatibility [⟨"T", {7, 8}, true⟩]
        [("u", [("U+0007", "maybe")])]).2.get? 0 = some row ∧
      ("u", some v) ∈ row.terminal_support ∧ 0 ≤ v ∧ v ≤ (row.num_chars : ℤ) ∧
      render_cell (some v) row.num_chars ≠ some Cell.unknown :=
  ⟨by decide, by decide,
    c9_bounds.1 [⟨"T", {7, 8}, true⟩] [("u", [("U+0007", "maybe")])] 0
      ⟨"T", {7, 8}, true⟩ "u" [("U+0007", "maybe")] (by decide) (by decide)⟩

/-- C10: a grid row is emitted with class `grid-row row-unimportant`
exactly when each of its 16 codepoints is neither important nor has a
`yes`/`maybe` verdict; otherwise its class is `grid-row`. -/
theorem c10_grid_rows :
    ∀ (sd : List (String × String)) (imp : Finset ℕ) (start n i : ℕ), i < n →
      (render_character_grid_classes sd imp start n).get? i
          = some (grid_row_class sd imp (start + i * 16)) ∧
      (grid_row_class sd imp (start + i * 16) = "grid-row row-unimportant" ↔
        ∀ col < 16, (start + i * 16 + col) ∉ imp ∧
          grid_status sd (start + i * 16 + col) ≠ "yes" ∧
          grid_status sd (start + i * 16 + col) ≠ "maybe") ∧
      (grid_row_class sd imp (start + i * 16) = "grid-row" ↔
        ¬ (∀ col < 16, (start + i * 16 + col) ∉ imp ∧
          grid_status sd (start + i * 16 + col) ≠ "yes" ∧
          grid_status sd (start + i * 16 + col) ≠ "maybe")) := by
  intro sd imp start n i hi
  have hkey : row_should_show sd imp (start + i * 16) = false ↔
      (∀ col < 16, (start + i * 16 + col) ∉ imp ∧
        grid_status sd (start + i * 16 + col) ≠ "yes" ∧
        grid_status sd (start + i * 16 + col) ≠ "maybe") := by
    simp only [row_should_show, cell_is_implemented, List.any_eq_false, List.mem_range,
      Bool.or_eq_true, decide_eq_true_eq, not_or]
  have hdiff : ("grid-row" : String) ≠ "grid-row row-unimportant" := by decide
  refine ⟨?_, ?_, ?_⟩
  · unfold render_character_grid_classes
    rw [List.get?_eq_getElem?, List.getElem?_map, List.getElem?_range hi]
    rfl
  · unfold grid_row_class
    by_cases hss : row_should_show sd imp (start + i * 16) = true
    · rw [if_pos hss]
      constructor
      · intro he; exact absurd he hdiff
      · intro hcond
        rw [hkey.mpr hcond] at hss
        exact absurd hss (by decide)
    · have hf : row_should_show sd imp (start + i * 16) = false := by
        revert hss; cases row_should_show sd imp (start + i * 16) <;> simp
      rw [if_neg hss]
      exact ⟨fun _ => hkey.mp hf, fun _ => rfl⟩
  · unfold grid_row_class
    by_cases hss : row_should_show sd imp (start + i * 16) = true
    · rw [if_pos hss]
      refine ⟨fun _ hcond => ?_, fun _ => rfl⟩
      rw [hkey.mpr hcond] at hss
      exact absurd hss (by decide)
    · have hf : row_should_show sd imp (start + i * 16) = false := by
        revert hss; cases row_should_show sd imp (start + i * 16) <;> simp
      rw [if_neg hss]
      constructor
      · intro he; exact absurd he.symm hdiff
      · intro hne; exact absurd (hkey.mp hf) hne

theorem c10_grid_rows_witness :
    (0 : ℕ) < 16 ∧
    ((render_character_grid_classes [("U+1FB00", "yes")] ∅ 0x1FB00 16).get? 0
        = some (grid_row_class [("U+1FB00", "yes")] ∅ (0x1FB00 + 0 * 16)) ∧
      (grid_row_class [("U+1FB00", "yes")] ∅ (0x1FB00 + 0 * 16) = "grid-row row-unimportant" ↔
        ∀ col < 16, (0x1FB00 + 0 * 16 + col) ∉ (∅ : Finset ℕ) ∧
          grid_status [("U+1FB00", "yes")] (0x1FB00 + 0 * 16 + col) ≠ "yes" ∧
          grid_status [("U+1FB00", "yes")] (0x1FB00 + 0 * 16 + col) ≠ "maybe") ∧
      (grid_row_class [("U+1FB00", "yes")] ∅ (0x1FB00 + 0 * 16) = "grid-row" ↔
        ¬ (∀ col < 16, (0x1FB00 + 0 * 16 + col) ∉ (∅ : Finset ℕ) ∧
          grid_status [("U+1FB00", "yes")] (0x1FB00 + 0 * 16 + col) ≠ "yes" ∧
          grid_status [("U+1FB00", "yes")] (0x1FB00 + 0 * 16 + col) ≠ "maybe"))) :=
  ⟨by decide, c10_grid_rows [("U+1FB00", "yes")] ∅ 0x1FB00 16 0 (by decide)⟩

/-- C3 counterexample: a data cell of a zero-codepoint section with value
0 takes the `val == num_chars` branch first and renders class `full`
(100%), not 0%; no zero-total guard exists for data cells. -/
theorem c3_zero_total_counterexample :
    (render_cell (some 0) 0).map cellClass = some "full" ∧
    render_cell (some 0) 0 ≠ some Cell.zero := by decide

/-- C3 (amended): the division guard `total = 0 → 0%` belongs to the
totals row; a data cell's percentage is `val / num_chars * 100` in the
partial branch (only reached with `val ∉ {0, num_chars}`), while a cell
with `val = 0` and `num_chars = 0` renders `full` (100%). -/
theorem c3_percentages :
    (∀ supported : ℤ, render_totals_pct supported 0 = 0) ∧
    (∀ (supported : ℤ) (total : ℕ), 0 < total →
      render_totals_pct supported total = (supported : ℚ) / (total : ℚ) * 100) ∧
    (∀ (v : ℤ) (n : ℕ), 0 < n → v ≠ (n : ℤ) → v ≠ 0 →
      render_cell (some v) n = some (Cell.part ((v : ℚ) / (n : ℚ) * 100))) ∧
    render_cell (some 0) 0 = some Cell.full := by
  refine ⟨fun s => by simp [render_totals_pct], fun s t ht => by simp [render_totals_pct, ht],
    ?_, by decide⟩
  intro v n hn hne hz
  have hn0 : n ≠ 0 := Nat.pos_iff_ne_zero.mp hn
  simp [render_cell, hne, hz, hn0]

theorem c3_percentages_witness :
    (0 : ℕ) < 4 ∧ (1 : ℤ) ≠ ((4 : ℕ) : ℤ) ∧ (1 : ℤ) ≠ 0 ∧
    render_totals_pct 3 4 = ((3 : ℤ) : ℚ) / ((4 : ℕ) : ℚ) * 100 ∧
    render_cell (some 1) 4 = some (Cell.part (((1 : ℤ) : ℚ) / ((4 : ℕ) : ℚ) * 100)) :=
  ⟨by decide, by decide, by decide,
    c3_percentages.2.1 3 4 (by decide),
    c3_percentages.2.2.1 1 4 (by decide) (by decide) (by decide)⟩

/-- C5 counterexample: with `val = 0` and `num_chars = 0` the claimed
`none` class (0%) is not produced; the `val == num_chars` branch fires
first and the cell renders `full`. -/
theorem c5_zero_cell_counterexample :
    (render_cell (some 0) 0).map cellClass = some "full" ∧ ("full" : String) ≠ "none" := by
  decide

/-- C5 (amended): the cell branches in source order — a `None` value
renders class `unknown`; `val = num_chars` renders `full` (100%);
otherwise `val = 0` renders `none` (0%); `0 < val < num_chars` renders
`partial` with percentage `val / num_chars * 100`. -/
theorem c5_cell_classes :
    (∀ n : ℕ, render_cell Option.none n = some Cell.unknown ∧
      cellClass Cell.unknown = "unknown") ∧
    (∀ (v : ℤ) (n : ℕ), v = (n : ℤ) →
      render_cell (some v) n = some Cell.full ∧ cellClass Cell.full = "full") ∧
    (∀ (v : ℤ) (n : ℕ), v = 0 → v ≠ (n : ℤ) →
      render_cell (some v) n = some Cell.zero ∧ cellClass Cell.zero = "none") ∧
    (∀ (v : ℤ) (n : ℕ), 0 < v → v < (n : ℤ) →
      render_cell (some v) n = some (Cell.part ((v : ℚ) / (n : ℚ) * 100)) ∧
      cellClass (Cell.part ((v : ℚ) / (n : ℚ) * 100)) = "partial") := by
  refine ⟨fun n => ⟨rfl, rfl⟩, fun v n hv => ⟨by simp [render_cell, hv], rfl⟩, ?_, ?_⟩
  · intro v n hv hne
    subst hv
    exact ⟨by simp [render_cell, hne], rfl⟩
  · intro v n hv hlt
    have h1 : v ≠ (n : ℤ) := ne_of_lt hlt
    have h2 : v ≠ 0 := ne_of_gt hv
    have h3 : n ≠ 0 := by
      intro e
      rw [e] at hlt
      exact absurd (lt_trans hv hlt) (by decide)
    exact ⟨by simp [render_cell, h1, h2, h3], rfl⟩

theorem c5_cell_classes_witness :
    (2 : ℤ) = ((2 : ℕ) : ℤ) ∧ (0 : ℤ) < 1 ∧ (1 : ℤ) < ((4 : ℕ) : ℤ) ∧
    (render_cell (some 2) 2 = some Cell.full ∧ cellClass Cell.full = "full") ∧
    (render_cell (some 1) 4 = some (Cell.part (((1 : ℤ) : ℚ) / ((4 : ℕ) : ℚ) * 100)) ∧
      cellClass (Cell.part (((1 : ℤ) : ℚ) / ((4 : ℕ) : ℚ) * 100)) = "partial") :=
  ⟨by decide, by decide, by decide,
    c5_cell_classes.2.1 2 2 (by decide),
    c5_cell_classes.2.2.2 1 4 (by decide) (by decide)⟩

/-- C7: byte-for-byte determinism of the CSV-derived generation — the
pipeline sorts the emulator files by name, so its entire output (table
rows, rendered cells, totals, block statistics, grid row classes) does
not depend on the order the directory listing supplies the files in. -/
theorem c7_generate_deterministic :
    ∀ (sectionRows : List (String × String))
      (files1 files2 : List (String × List (String × String)))
      (start num_rows : ℕ),
      files1.Perm files2 → (files1.map Prod.fst).Nodup →
      generate sectionRows files1 start num_rows
        = generate sectionRows files2 start num_rows := by
  intro sr f1 f2 start nr hp hn
  unfold generate build_emulator_data
  rw [insertionSort_csvName_perm_eq f1 f2 hp hn]

theorem c7_generate_deterministic_witness :
    ([("b", [("U+0000", "yes")]), ("a", [])] : List (String × List (String × String))).Perm
        [("a", []), ("b", [("U+0000", "yes")])] ∧
    (([("b", [("U+0000", "yes")]), ("a", [])] :
        List (String × List (String × String))).map Prod.fst).Nodup ∧
    generate [("S", "0-1")] [("b", [("U+0000", "yes")]), ("a", [])] 0 1
      = generate [("S", "0-1")] [("a", []), ("b", [("U+0000", "yes")])] 0 1 :=
  ⟨by decide, by decide,
    c7_generate_deterministic [("S", "0-1")] [("b", [("U+0000", "yes")]), ("a", [])]
      [("a", []), ("b", [("U+0000", "yes")])] 0 1 (by decide) (by decide)⟩
